import Mathlib

/-!
Verification development for the `cablab` data-cube engine (`src/cablab/cube.py`).

Modelling conventions (shallow embedding):
* Numeric times ("days since epoch", produced in the source by `cablab.date2num`)
  are modelled as exact rationals `ℚ`; Python float literals such as `0.5`, `-1.0`
  appear as the corresponding rationals.  The `date2num`/`num2date` conversions are
  a fixed bijection between calendar times and scalars, so all time arithmetic is
  carried out directly on the scalar side, exactly as the source does after its
  initial conversion.
* Pure functions of the source (`_get_overlap`, `_get_num_steps`, the alignment and
  stepping arithmetic of `Cube.update`) become Lean functions on `ℚ`.
* Stateful parts (netCDF datasets, the file system) become explicit state passing:
  a per-(variable, year) netCDF file is an `Option NcDataset` (`none` = the file
  does not exist yet), and `Cube.update`'s engine loop is the state-transformer
  `updateRun`, which also records the sequence of provider calls it performs.
-/

namespace Cablab

/-- `_get_overlap(a1, a2, b1, b2)` from `cube.py` (lines 160-173), verbatim branch
structure: `a1_in_range`/`a2_in_range` test the endpoints of A against `[b1, b2]`,
then `b1_in_range`/`b2_in_range` test the endpoints of B against `[a1, a2]`, and
the final fallthrough returns the sentinel `-1.0`. -/
def getOverlap (a1 a2 b1 b2 : ℚ) : ℚ :=
  if (b1 ≤ a1 ∧ a1 ≤ b2) ∧ (b1 ≤ a2 ∧ a2 ≤ b2) then 1
  else if b1 ≤ a1 ∧ a1 ≤ b2 then (b2 - a1) / (b2 - b1)
  else if b1 ≤ a2 ∧ a2 ≤ b2 then (a2 - b1) / (b2 - b1)
  else if (a1 ≤ b1 ∧ b1 ≤ a2) ∧ (a1 ≤ b2 ∧ b2 ≤ a2) then (b2 - b1) / (a2 - a1)
  else -1

lemma getOverlap_ex1 : getOverlap 2 5 0 4 = 1/2 := by
  norm_num [getOverlap]

lemma getOverlap_ex2 : getOverlap 0 10 2 5 = 3/10 := by
  norm_num [getOverlap]

/-- C1: for `a1 ≤ a2` and `b1 ≤ b2` the overlap function returns `1` when both
endpoints of A lie in `[b1, b2]`; `(b2-a1)/(b2-b1)` when only `a1` does;
`(a2-b1)/(b2-b1)` when only `a2` does; `(b2-b1)/(a2-a1)` when neither endpoint of A
lies in `[b1, b2]` but both endpoints of B lie in `[a1, a2]`; and the sentinel `-1`
in every remaining case — in particular for all disjoint A and B, never `0` there.
Moreover `_get_overlap(2,5,0,4) = 0.5` and `_get_overlap(0,10,2,5) = 0.3`. -/
theorem getOverlap_branches (a1 a2 b1 b2 : ℚ) (ha : a1 ≤ a2) (hb : b1 ≤ b2) :
    ((b1 ≤ a1 ∧ a1 ≤ b2) ∧ (b1 ≤ a2 ∧ a2 ≤ b2) → getOverlap a1 a2 b1 b2 = 1) ∧
    ((b1 ≤ a1 ∧ a1 ≤ b2) ∧ ¬(b1 ≤ a2 ∧ a2 ≤ b2) →
      getOverlap a1 a2 b1 b2 = (b2 - a1) / (b2 - b1)) ∧
    (¬(b1 ≤ a1 ∧ a1 ≤ b2) ∧ (b1 ≤ a2 ∧ a2 ≤ b2) →
      getOverlap a1 a2 b1 b2 = (a2 - b1) / (b2 - b1)) ∧
    (¬(b1 ≤ a1 ∧ a1 ≤ b2) ∧ ¬(b1 ≤ a2 ∧ a2 ≤ b2) ∧
        ((a1 ≤ b1 ∧ b1 ≤ a2) ∧ (a1 ≤ b2 ∧ b2 ≤ a2)) →
      getOverlap a1 a2 b1 b2 = (b2 - b1) / (a2 - a1)) ∧
    (¬(b1 ≤ a1 ∧ a1 ≤ b2) ∧ ¬(b1 ≤ a2 ∧ a2 ≤ b2) ∧
        ¬((a1 ≤ b1 ∧ b1 ≤ a2) ∧ (a1 ≤ b2 ∧ b2 ≤ a2)) →
      getOverlap a1 a2 b1 b2 = -1) ∧
    (a2 < b1 ∨ b2 < a1 → getOverlap a1 a2 b1 b2 = -1) ∧
    getOverlap 2 5 0 4 = 1/2 ∧ getOverlap 0 10 2 5 = 3/10 := by
  have hdisj : a2 < b1 ∨ b2 < a1 → getOverlap a1 a2 b1 b2 = -1 := by
    intro h
    have hg1 : ¬((b1 ≤ a1 ∧ a1 ≤ b2) ∧ (b1 ≤ a2 ∧ a2 ≤ b2)) := by
      rcases h with h | h <;> rintro ⟨⟨h1, h2⟩, ⟨h3, h4⟩⟩ <;> linarith
    have hg2 : ¬(b1 ≤ a1 ∧ a1 ≤ b2) := by
      rcases h with h | h <;> rintro ⟨h1, h2⟩ <;> linarith
    have hg3 : ¬(b1 ≤ a2 ∧ a2 ≤ b2) := by
      rcases h with h | h <;> rintro ⟨h1, h2⟩ <;> linarith
    have hg4 : ¬((a1 ≤ b1 ∧ b1 ≤ a2) ∧ (a1 ≤ b2 ∧ b2 ≤ a2)) := by
      rcases h with h | h <;> rintro ⟨⟨h1, h2⟩, ⟨h3, h4⟩⟩ <;> linarith
    unfold getOverlap
    rw [if_neg hg1, if_neg hg2, if_neg hg3, if_neg hg4]
  refine ⟨?_, ?_, ?_, ?_, ?_, hdisj, getOverlap_ex1, getOverlap_ex2⟩
  · rintro ⟨hA, hB⟩
    unfold getOverlap
    rw [if_pos ⟨hA, hB⟩]
  · rintro ⟨hA, hB⟩
    unfold getOverlap
    rw [if_neg (fun hc => hB hc.2), if_pos hA]
  · rintro ⟨hA, hB⟩
    unfold getOverlap
    rw [if_neg (fun hc => hA hc.1), if_neg hA, if_pos hB]
  · rintro ⟨hA, hB, hC⟩
    unfold getOverlap
    rw [if_neg (fun hc => hA hc.1), if_neg hA, if_neg hB, if_pos hC]
  · rintro ⟨hA, hB, hC⟩
    unfold getOverlap
    rw [if_neg (fun hc => hA hc.1), if_neg hA, if_neg hB, if_neg hC]

/-- Witness for C1 at the concrete input A = [2,5], B = [0,4]. -/
theorem getOverlap_branches_witness : getOverlap 2 5 0 4 = 1/2 :=
  (getOverlap_branches 2 5 0 4 (by norm_num) (by norm_num)).2.2.2.2.2.2.1

/-- C10: for `a1 ≤ a2` and `b1 < b2` the overlap function never divides by zero:
the denominator `b2 - b1` of the two partial-overlap branches is nonzero, and the
containment branch (dividing by `a2 - a1`) is reachable only when both endpoints
of B lie in `[a1, a2]` while neither endpoint of A lies in `[b1, b2]`, which
forces `a1 < a2`, so its denominator is nonzero as well. -/
theorem getOverlap_denominators (a1 a2 b1 b2 : ℚ) (ha : a1 ≤ a2) (hb : b1 < b2) :
    b2 - b1 ≠ 0 ∧
    (¬(b1 ≤ a1 ∧ a1 ≤ b2) ∧ ¬(b1 ≤ a2 ∧ a2 ≤ b2) ∧
        ((a1 ≤ b1 ∧ b1 ≤ a2) ∧ (a1 ≤ b2 ∧ b2 ≤ a2)) →
      a1 < a2 ∧ a2 - a1 ≠ 0 ∧ getOverlap a1 a2 b1 b2 = (b2 - b1) / (a2 - a1)) := by
  constructor
  · exact sub_ne_zero.mpr hb.ne'
  · rintro ⟨hg1, hg2, ⟨⟨hb1a, hb1b⟩, ⟨hb2a, hb2b⟩⟩⟩
    have h12 : a1 < a2 := by linarith
    refine ⟨h12, sub_ne_zero.mpr h12.ne', ?_⟩
    unfold getOverlap
    rw [if_neg (fun hc => hg1 hc.1), if_neg hg1, if_neg hg2,
      if_pos ⟨⟨hb1a, hb1b⟩, ⟨hb2a, hb2b⟩⟩]

/-- Witness for C10 at the concrete input A = [0,10], B = [2,5] (containment branch). -/
theorem getOverlap_denominators_witness :
    (10:ℚ) - 0 ≠ 0 ∧ getOverlap 0 10 2 5 = (5 - 2) / (10 - 0) := by
  have h := (getOverlap_denominators 0 10 2 5 (by norm_num) (by norm_num)).2
    (by norm_num)
  exact ⟨h.2.1, h.2.2⟩

/-- `_get_num_steps(x1, x2, dx)` from `cube.py` (lines 426-427):
`int(math.floor((x2 - x1) / dx))`. -/
def numSteps (x1 x2 dx : ℚ) : ℤ :=
  ⌊(x2 - x1) / dx⌋

/-- The aligned source start computed by `Cube.update` (lines 326-328):
`n = _get_num_steps(cube_start_time, src_start_time, cube_temporal_res)` followed by
`src_start_time = cube_start_time + n * cube_temporal_res`. -/
def alignedStart (cubeStart srcStart dx : ℚ) : ℚ :=
  cubeStart + (numSteps cubeStart srcStart dx : ℚ) * dx

lemma alignedStart_ex : alignedStart 0 10 8 = 8 := by
  norm_num [alignedStart, numSteps]

/-- C2 counterexample: for `cube_start = 0`, `temporal_res = 8`, `src_start = 10`
the code's aligned start is `8`, not the claimed `16`, and it is not `≥ src_start`. -/
theorem alignedStart_claim_cex :
    alignedStart 0 10 8 = 8 ∧ alignedStart 0 10 8 ≠ 16 ∧ ¬(10 ≤ alignedStart 0 10 8) := by
  refine ⟨alignedStart_ex, ?_, ?_⟩ <;> rw [alignedStart_ex] <;> norm_num

/-- C2 amended: for every temporal resolution `dx > 0` the aligned start equals
`cube_start + n·dx` for `n = ⌊(src_start − cube_start)/dx⌋`, which is the LARGEST
integer with `cube_start + n·dx ≤ src_start` (floor semantics, rounding down to the
cube grid rather than up); in particular for `cube_start = 0`, `temporal_res = 8`,
`src_start = 10` the aligned start is `8`. -/
theorem alignedStart_floor_spec (c s dx : ℚ) (hdx : 0 < dx) :
    alignedStart c s dx ≤ s ∧
    s < alignedStart c s dx + dx ∧
    (∀ m : ℤ, c + (m : ℚ) * dx ≤ s → m ≤ numSteps c s dx) ∧
    alignedStart 0 10 8 = 8 := by
  have h1 : ((⌊(s - c) / dx⌋ : ℤ) : ℚ) ≤ (s - c) / dx := Int.floor_le _
  have h2 : (s - c) / dx < ((⌊(s - c) / dx⌋ : ℤ) : ℚ) + 1 := Int.lt_floor_add_one _
  have h1m : ((⌊(s - c) / dx⌋ : ℤ) : ℚ) * dx ≤ s - c := (le_div_iff₀ hdx).mp h1
  have h2m : s - c < (((⌊(s - c) / dx⌋ : ℤ) : ℚ) + 1) * dx := (div_lt_iff₀ hdx).mp h2
  refine ⟨?_, ?_, ?_, alignedStart_ex⟩
  · simp only [alignedStart, numSteps]
    linarith
  · simp only [alignedStart, numSteps]
    nlinarith
  · intro m hm
    simp only [numSteps]
    exact Int.le_floor.mpr ((le_div_iff₀ hdx).mpr (by linarith))

/-- Witness for C2's amended theorem at `cube_start = 0`, `src_start = 10`, `dx = 8`. -/
theorem alignedStart_floor_spec_witness :
    alignedStart 0 10 8 ≤ 10 ∧ (10:ℚ) < alignedStart 0 10 8 + 8 :=
  ⟨(alignedStart_floor_spec 0 10 8 (by norm_num)).1,
   (alignedStart_floor_spec 0 10 8 (by norm_num)).2.1⟩

/-- The target windows requested by the loop of `Cube.update` (lines 330-338):
`steps = _get_num_steps(src_start_time, src_end_time, cube_temporal_res)`, then for
`i in range(steps + 1)` the window `[target_start_time, target_end_time)` with
`target_start_time = src_start_time + i * cube_temporal_res` is requested from the
provider whenever `target_start_time < src_end_time` (here `src_start_time` is the
already-aligned start). -/
def requestedWindows (al srcEnd dx : ℚ) : List (ℚ × ℚ) :=
  (List.range ((numSteps al srcEnd dx + 1).toNat)).filterMap (fun (i : ℕ) =>
    if al + (i : ℚ) * dx < srcEnd then
      some (al + (i : ℚ) * dx, al + (i : ℚ) * dx + dx)
    else none)

lemma filterMap_ite_of_all {α : Type} (p : ℕ → Prop) [DecidablePred p] (f : ℕ → α) :
    ∀ l : List ℕ, (∀ i ∈ l, p i) →
      l.filterMap (fun i => if p i then some (f i) else none) = l.map f := by
  intro l
  induction l with
  | nil => intro _; rfl
  | cons a t ih =>
    intro h
    have hpa : p a := h a (List.mem_cons_self a t)
    have ht := ih (fun i hi => h i (List.mem_cons_of_mem a hi))
    simp [List.filterMap_cons, hpa, ht]

lemma filterMap_ite_of_none {α : Type} (p : ℕ → Prop) [DecidablePred p] (f : ℕ → α) :
    ∀ l : List ℕ, (∀ i ∈ l, ¬p i) →
      l.filterMap (fun i => if p i then some (f i) else none) = [] := by
  intro l
  induction l with
  | nil => intro _; rfl
  | cons a t ih =>
    intro h
    have hpa : ¬p a := h a (List.mem_cons_self a t)
    have ht := ih (fun i hi => h i (List.mem_cons_of_mem a hi))
    simp [List.filterMap_cons, hpa, ht]

lemma range_filterMap_ite {α : Type} (p : ℕ → Prop) [DecidablePred p] (f : ℕ → α)
    (k m : ℕ) (hmk : m ≤ k) (hp : ∀ i, p i ↔ i < m) :
    (List.range k).filterMap (fun i => if p i then some (f i) else none) =
      (List.range m).map f := by
  obtain ⟨d, rfl⟩ := Nat.exists_eq_add_of_le hmk
  rw [List.range_add m d, List.filterMap_append,
    filterMap_ite_of_all p f (List.range m) (fun i hi => (hp i).mpr (List.mem_range.mp hi)),
    filterMap_ite_of_none p f ((List.range d).map (fun x => m + x)) ?_, List.append_nil]
  intro i hi
  rw [List.mem_map] at hi
  obtain ⟨j, _, rfl⟩ := hi
  rw [hp]
  omega

/-- The loop guard `target_start < src_end` holds exactly for the step indices
below `⌈(src_end - aligned_start)/dx⌉`. -/
lemma window_pred_iff (al srcEnd dx : ℚ) (hdx : 0 < dx) (i : ℕ) :
    al + (i : ℚ) * dx < srcEnd ↔ i < (⌈(srcEnd - al) / dx⌉).toNat := by
  have c1 : al + (i : ℚ) * dx < srcEnd ↔ (i : ℚ) < (srcEnd - al) / dx := by
    rw [lt_div_iff₀ hdx]
    constructor <;> intro h <;> linarith
  have c2 : (i : ℚ) < (srcEnd - al) / dx ↔ ((i : ℕ) : ℤ) < ⌈(srcEnd - al) / dx⌉ := by
    rw [Int.lt_ceil, Int.cast_natCast]
  have c3 : ((i : ℕ) : ℤ) < ⌈(srcEnd - al) / dx⌉ ↔ i < (⌈(srcEnd - al) / dx⌉).toNat :=
    Int.lt_toNat.symm
  exact c1.trans (c2.trans c3)

/-- The requested windows are exactly the first `⌈(src_end - aligned_start)/dx⌉`
aligned windows, in step order. -/
lemma requestedWindows_eq (al srcEnd dx : ℚ) (hdx : 0 < dx) :
    requestedWindows al srcEnd dx =
      (List.range ((⌈(srcEnd - al) / dx⌉).toNat)).map
        (fun i : ℕ => (al + (i : ℚ) * dx, al + (i : ℚ) * dx + dx)) := by
  have hmk : (⌈(srcEnd - al) / dx⌉).toNat ≤ (numSteps al srcEnd dx + 1).toNat :=
    Int.toNat_le_toNat (Int.ceil_le_floor_add_one ((srcEnd - al) / dx))
  unfold requestedWindows
  exact range_filterMap_ite
    (fun i : ℕ => al + (i : ℚ) * dx < srcEnd)
    (fun i : ℕ => (al + (i : ℚ) * dx, al + (i : ℚ) * dx + dx))
    ((numSteps al srcEnd dx + 1).toNat) ((⌈(srcEnd - al) / dx⌉).toNat)
    hmk (window_pred_iff al srcEnd dx hdx)

/-- State of one per-(variable, year) netCDF file (`<year>_<var>.nc`): the
unlimited-time-dimension variables `start_time`, `end_time` and the image stack,
plus a counter of how many times `Cube._init_variable_dataset` ran on this file
(it creates the dimensions and the longitude/latitude coordinate variables).
The image payload type is abstract (`Img`). -/
structure NcDataset (Img : Type) where
  coordInitCount : ℕ
  start_times : List ℚ
  end_times : List ℚ
  images : List Img

/-- `Cube._init_variable_dataset` (lines 376-423): a freshly created dataset with
initialized coordinate variables and empty unlimited time dimension. -/
def initVariableDataset (Img : Type) : NcDataset Img :=
  { coordInitCount := 1, start_times := [], end_times := [], images := [] }

/-- `Cube._write_image` (lines 351-374) for one (variable, year) file: if the file
does not exist it is created and initialized, otherwise it is opened as-is; then
`i = len(var_start_time)` and the triple `(start, end, image)` is written at
index `i` of the three unlimited-dimension variables, which extends each of them
by exactly one slot (netCDF assignment at index = current length). -/
def writeImage {Img : Type} (ds : Option (NcDataset Img)) (t1 t2 : ℚ) (img : Img) :
    NcDataset Img :=
  let d := match ds with
    | none => initVariableDataset Img
    | some d => d
  { d with
    start_times := d.start_times ++ [t1],
    end_times := d.end_times ++ [t2],
    images := d.images ++ [img] }

/-- A sequence of `_write_image` calls against the same (variable, year) file. -/
def writeImages {Img : Type} (ds : Option (NcDataset Img)) (ws : List (ℚ × ℚ × Img)) :
    Option (NcDataset Img) :=
  ws.foldl (fun acc w => some (writeImage acc w.1 w.2.1 w.2.2)) ds

lemma writeImages_some {Img : Type} :
    ∀ (ws : List (ℚ × ℚ × Img)) (d : NcDataset Img),
      writeImages (some d) ws = some
        { coordInitCount := d.coordInitCount,
          start_times := d.start_times ++ ws.map (fun w => w.1),
          end_times := d.end_times ++ ws.map (fun w => w.2.1),
          images := d.images ++ ws.map (fun w => w.2.2) } := by
  intro ws
  induction ws with
  | nil =>
    intro d
    simp [writeImages]
  | cons a t ih =>
    intro d
    have hstep : writeImages (some d) (a :: t) =
        writeImages (some (writeImage (some d) a.1 a.2.1 a.2.2)) t := rfl
    rw [hstep, ih]
    simp [writeImage]

/-- C4: every `_write_image` call stores its `(start, end, image)` triple at the
index equal to the current length of the `start_time` variable, extending it by
one; starting from a non-existent file, writing the windows `ws` yields a dataset
whose time-bounds variable has length `ws.length`, whose entries appear exactly in
write order, and whose coordinate variables were initialized exactly once (on
first creation only). -/
theorem write_image_append_order {Img : Type} (ws : List (ℚ × ℚ × Img)) (hne : ws ≠ []) :
    (∀ (d : NcDataset Img) (t1 t2 : ℚ) (img : Img),
      (writeImage (some d) t1 t2 img).start_times[d.start_times.length]? = some t1 ∧
      (writeImage (some d) t1 t2 img).end_times[d.end_times.length]? = some t2 ∧
      (writeImage (some d) t1 t2 img).start_times.length = d.start_times.length + 1 ∧
      (writeImage (some d) t1 t2 img).start_times = d.start_times ++ [t1] ∧
      (writeImage (some d) t1 t2 img).coordInitCount = d.coordInitCount) ∧
    (∃ d : NcDataset Img, writeImages none ws = some d ∧
      d.start_times = ws.map (fun w => w.1) ∧
      d.end_times = ws.map (fun w => w.2.1) ∧
      d.images = ws.map (fun w => w.2.2) ∧
      d.start_times.length = ws.length ∧
      d.coordInitCount = 1) := by
  constructor
  · intro d t1 t2 img
    refine ⟨?_, ?_, ?_, rfl, rfl⟩
    · exact List.getElem?_concat_length d.start_times t1
    · exact List.getElem?_concat_length d.end_times t2
    · simp [writeImage]
  · match ws, hne with
    | a :: t, _ =>
      have hstep : writeImages (none : Option (NcDataset Img)) (a :: t) =
          writeImages (some (writeImage none a.1 a.2.1 a.2.2)) t := rfl
      have hfirst : writeImage (none : Option (NcDataset Img)) a.1 a.2.1 a.2.2 =
          { coordInitCount := 1, start_times := [a.1],
            end_times := [a.2.1], images := [a.2.2] } := rfl
      refine ⟨_, by rw [hstep, hfirst, writeImages_some], ?_, ?_, ?_, ?_, rfl⟩ <;> simp

/-- Witness for C4: a single write into a fresh file lands at index 0. -/
theorem write_image_append_order_witness :
    (writeImage (some (initVariableDataset Unit)) 0 8 ()).start_times[
      (initVariableDataset Unit).start_times.length]? = some 0 :=
  ((write_image_append_order [((0:ℚ), (8:ℚ), ())] (by simp)).1
    (initVariableDataset Unit) 0 8 ()).1

/-- Index-assigning loop of `BaseCubeSourceProvider.get_images` (lines 124-129):
`for i in range(len(self.source_time_ranges))`, compute the overlap weight of
source range `i` against the target window `[b1, b2]` and record `i ↦ weight`
exactly when `weight > 0`.  `k` is the index of the head of the remaining list. -/
def sourceWeightsAux (b1 b2 : ℚ) : ℕ → List (ℚ × ℚ) → List (ℕ × ℚ)
  | _, [] => []
  | k, (s1, s2) :: rest =>
    if 0 < getOverlap s1 s2 b1 b2 then
      (k, getOverlap s1 s2 b1 b2) :: sourceWeightsAux b1 b2 (k + 1) rest
    else sourceWeightsAux b1 b2 (k + 1) rest

/-- The `index_to_weight` mapping built by `BaseCubeSourceProvider.get_images`
for the target window `[b1, b2]`, as an association list in index order. -/
def sourceOverlapWeights (ranges : List (ℚ × ℚ)) (b1 b2 : ℚ) : List (ℕ × ℚ) :=
  sourceWeightsAux b1 b2 0 ranges

/-- The provider calls made by `Cube.update` (lines 306-343), in program order. -/
inductive UpdateEvent where
  | prepare : UpdateEvent
  | getTemporalCoverage : UpdateEvent
  | getImages : ℚ → ℚ → UpdateEvent
  | providerClose : UpdateEvent
deriving DecidableEq

/-- `Cube.update` (lines 306-343) driving a `BaseCubeSourceProvider` (lines 80-157)
with one variable: `ranges` is the provider's `source_time_ranges` list,
`computeImages` abstracts `compute_images_from_sources`, `closed` is the cube's
closed flag, and `ds` is the on-disk state of the single (variable, year) file.
The run fails with `IOError('cube has been closed')` before anything else when the
cube is closed (line 312-313); with a prepared provider it reads the temporal
coverage (first range's start, last range's end, lines 109-113), aligns the start
to the cube grid, walks the requested windows, asks the provider for images on
each (the provider returns images exactly when its index-to-weight mapping is
nonempty, lines 122-131), writes each returned image, and closes the provider.
Returned: the `IOError`-or-unit outcome, the provider calls made, and the final
file state. -/
def updateRun {Img : Type} (computeImages : List (ℕ × ℚ) → Img)
    (ranges : List (ℚ × ℚ)) (closed : Bool) (cubeStart dx : ℚ)
    (ds : Option (NcDataset Img)) :
    Except String Unit × List UpdateEvent × Option (NcDataset Img) :=
  if closed then (Except.error "cube has been closed", [], ds)
  else
    match ranges with
    | [] => (Except.error "list index out of range", [UpdateEvent.prepare], ds)
    | r0 :: rest =>
      let srcEnd := ((r0 :: rest).getLast (List.cons_ne_nil r0 rest)).2
      let al := alignedStart cubeStart r0.1 dx
      let ws := requestedWindows al srcEnd dx
      (Except.ok (),
        UpdateEvent.prepare :: UpdateEvent.getTemporalCoverage ::
          (ws.map (fun w => UpdateEvent.getImages w.1 w.2) ++ [UpdateEvent.providerClose]),
        ws.foldl (fun acc w =>
          if (sourceOverlapWeights (r0 :: rest) w.1 w.2).isEmpty then acc
          else some (writeImage acc w.1 w.2
            (computeImages (sourceOverlapWeights (r0 :: rest) w.1 w.2)))) ds)

/-- C3: in one `Cube.update` invocation on an open cube the engine issues exactly
one `get_images` call per aligned window (first conjunct: the emitted call list is
the window list, in order), a window with start `aligned_start + i·dx` is requested
iff that start is strictly below `src_end` (second conjunct, whence each qualifying
window is requested, and — with the strict monotonicity of the last conjunct —
exactly once), every requested window starts inside `[aligned_start, src_end)` and
has width `dx` on the aligned grid (third conjunct), and the requested windows are
consecutive, gap-free, non-overlapping and in increasing time order (fourth and
fifth conjuncts). -/
theorem update_requested_windows (al srcEnd dx : ℚ) (hdx : 0 < dx) :
    (∀ (Img : Type) (ci : List (ℕ × ℚ) → Img) (r0 : ℚ × ℚ) (rest : List (ℚ × ℚ))
        (c : ℚ) (ds : Option (NcDataset Img)),
      alignedStart c r0.1 dx = al →
      ((r0 :: rest).getLast (List.cons_ne_nil r0 rest)).2 = srcEnd →
      (updateRun ci (r0 :: rest) false c dx ds).2.1 =
        UpdateEvent.prepare :: UpdateEvent.getTemporalCoverage ::
          ((requestedWindows al srcEnd dx).map (fun w => UpdateEvent.getImages w.1 w.2) ++
            [UpdateEvent.providerClose])) ∧
    (∀ i : ℕ, (al + (i : ℚ) * dx, al + (i : ℚ) * dx + dx) ∈ requestedWindows al srcEnd dx ↔
      al + (i : ℚ) * dx < srcEnd) ∧
    (∀ w ∈ requestedWindows al srcEnd dx,
      al ≤ w.1 ∧ w.1 < srcEnd ∧ w.2 = w.1 + dx ∧ ∃ i : ℕ, w.1 = al + (i : ℚ) * dx) ∧
    List.Chain' (fun u v : ℚ × ℚ => v.1 = u.2) (requestedWindows al srcEnd dx) ∧
    List.Pairwise (fun u v : ℚ × ℚ => u.1 < v.1) (requestedWindows al srcEnd dx) := by
  have hmono : ∀ i j : ℕ, i < j → al + (i : ℚ) * dx < al + (j : ℚ) * dx := by
    intro i j hij
    have hij' : (i : ℚ) < (j : ℚ) := by exact_mod_cast hij
    nlinarith
  refine ⟨?_, ?_, ?_, ?_, ?_⟩
  · intro Img ci r0 rest c ds hal hend
    simp only [updateRun, if_neg (by simp : ¬(false = true)), hal, hend]
  · intro i
    rw [requestedWindows_eq al srcEnd dx hdx]
    constructor
    · intro hmem
      rw [List.mem_map] at hmem
      obtain ⟨j, hj, hfj⟩ := hmem
      rw [List.mem_range] at hj
      have hfst : al + (j : ℚ) * dx = al + (i : ℚ) * dx := congrArg Prod.fst hfj
      have hji : (j : ℚ) * dx = (i : ℚ) * dx := by linarith
      have hcast : (j : ℚ) = (i : ℚ) := mul_right_cancel₀ (ne_of_gt hdx) hji
      have : j = i := Nat.cast_injective hcast
      subst this
      exact (window_pred_iff al srcEnd dx hdx j).mpr hj
    · intro hlt
      rw [List.mem_map]
      exact ⟨i, List.mem_range.mpr ((window_pred_iff al srcEnd dx hdx i).mp hlt), rfl⟩
  · intro w hw
    rw [requestedWindows_eq al srcEnd dx hdx, List.mem_map] at hw
    obtain ⟨i, hi, rfl⟩ := hw
    rw [List.mem_range] at hi
    refine ⟨?_, (window_pred_iff al srcEnd dx hdx i).mpr hi, rfl, ⟨i, rfl⟩⟩
    show al ≤ al + (i : ℚ) * dx
    have : (0 : ℚ) ≤ (i : ℚ) * dx := mul_nonneg (Nat.cast_nonneg i) (le_of_lt hdx)
    linarith
  · rw [requestedWindows_eq al srcEnd dx hdx, List.chain'_map]
    cases hm : (⌈(srcEnd - al) / dx⌉).toNat with
    | zero => simp
    | succ n =>
      rw [List.chain'_range_succ]
      intro m _
      push_cast
      ring
  · rw [requestedWindows_eq al srcEnd dx hdx, List.pairwise_map]
    exact (List.pairwise_lt_range _).imp (fun hij => hmono _ _ hij)

/-- Witness for C3: with `aligned_start = 0`, `src_end = 8`, `dx = 8` the window
`[0, 8)` (step index 0) is requested. -/
theorem update_requested_windows_witness :
    ((0:ℚ) + ((0:ℕ) : ℚ) * 8, (0:ℚ) + ((0:ℕ) : ℚ) * 8 + 8) ∈ requestedWindows 0 8 8 :=
  ((update_requested_windows 0 8 8 (by norm_num)).2.1 0).mpr (by norm_num)

/-- C6: calling `update` on a closed cube fails immediately with
`IOError('cube has been closed')`: no provider method is invoked (the emitted call
list is empty) and the on-disk dataset state is returned unchanged. -/
theorem update_closed_error {Img : Type} (ci : List (ℕ × ℚ) → Img)
    (ranges : List (ℚ × ℚ)) (c dx : ℚ) (ds : Option (NcDataset Img)) :
    updateRun ci ranges true c dx ds = (Except.error "cube has been closed", [], ds) := by
  rfl

/-- Every strictly positive overlap weight is at most 1 (for a nondegenerate
target window `b1 < b2`). -/
lemma getOverlap_pos_le_one (s1 s2 b1 b2 : ℚ) (hb : b1 < b2) :
    0 < getOverlap s1 s2 b1 b2 → getOverlap s1 s2 b1 b2 ≤ 1 := by
  unfold getOverlap
  split_ifs with h1 h2 h3 h4 <;> intro hpos
  · exact le_refl 1
  · rw [div_le_one (by linarith)]
    linarith [h2.1]
  · rw [div_le_one (by linarith)]
    linarith [h3.2]
  · rw [div_le_one (by linarith [h4.1.1, h4.2.2])]
    linarith [h4.1.1, h4.2.2]
  · linarith

/-- Membership in the weight list built by `get_images`: `(i, w)` is recorded iff
source range number `i - k` of the remaining list `l` has overlap weight `w` with
the window and `w > 0` (`k` is the index of the head of `l`). -/
lemma sourceWeightsAux_mem (b1 b2 : ℚ) :
    ∀ (l : List (ℚ × ℚ)) (k i : ℕ) (w : ℚ),
      ((i, w) ∈ sourceWeightsAux b1 b2 k l ↔
        ∃ j : ℕ, ∃ r : ℚ × ℚ, i = k + j ∧ l[j]? = some r ∧
          w = getOverlap r.1 r.2 b1 b2 ∧ 0 < w) := by
  intro l
  induction l with
  | nil =>
    intro k i w
    simp [sourceWeightsAux]
  | cons a t ih =>
    intro k i w
    obtain ⟨s1, s2⟩ := a
    simp only [sourceWeightsAux]
    split_ifs with hpos
    · simp only [List.mem_cons]
      constructor
      · rintro (heq | hmem)
        · rw [Prod.mk.injEq] at heq
          exact ⟨0, (s1, s2), by omega, by simp, by rw [heq.2], by rw [heq.2]; exact hpos⟩
        · obtain ⟨j, r, hij, hr, hw, hwpos⟩ := (ih (k + 1) i w).mp hmem
          exact ⟨j + 1, r, by omega, by simpa using hr, hw, hwpos⟩
      · rintro ⟨j, r, hij, hr, hw, hwpos⟩
        cases j with
        | zero =>
          left
          simp only [List.getElem?_cons_zero, Option.some.injEq] at hr
          rw [Prod.mk.injEq]
          subst hr
          exact ⟨by omega, by rw [hw]⟩
        | succ j =>
          right
          exact (ih (k + 1) i w).mpr ⟨j, r, by omega, by simpa using hr, hw, hwpos⟩
    · rw [ih (k + 1) i w]
      constructor
      · rintro ⟨j, r, hij, hr, hw, hwpos⟩
        exact ⟨j + 1, r, by omega, by simpa using hr, hw, hwpos⟩
      · rintro ⟨j, r, hij, hr, hw, hwpos⟩
        cases j with
        | zero =>
          exfalso
          simp only [List.getElem?_cons_zero, Option.some.injEq] at hr
          subst hr
          rw [hw] at hwpos
          exact hpos hwpos
        | succ j =>
          exact ⟨j, r, by omega, by simpa using hr, hw, hwpos⟩

/-- C5: for a target window `b1 < b2` and source ranges all satisfying `s1 < s2`,
the `index_to_weight` mapping of `BaseCubeSourceProvider.get_images` contains only
weights in `(0, 1]`; an index is present iff its source range's overlap with the
window is strictly positive (the recorded weight being exactly that overlap); and
every strictly positive overlap value is at most 1. -/
theorem index_to_weight_range (ranges : List (ℚ × ℚ)) (b1 b2 : ℚ)
    (hb : b1 < b2) (hs : ∀ r ∈ ranges, r.1 < r.2) :
    (∀ e ∈ sourceOverlapWeights ranges b1 b2, 0 < e.2 ∧ e.2 ≤ 1) ∧
    (∀ (i : ℕ) (r : ℚ × ℚ), ranges[i]? = some r →
      ((∃ w, (i, w) ∈ sourceOverlapWeights ranges b1 b2) ↔
        0 < getOverlap r.1 r.2 b1 b2)) ∧
    (∀ (i : ℕ) (w : ℚ), (i, w) ∈ sourceOverlapWeights ranges b1 b2 →
      ∃ r : ℚ × ℚ, ranges[i]? = some r ∧ w = getOverlap r.1 r.2 b1 b2) ∧
    (∀ s1 s2 : ℚ, 0 < getOverlap s1 s2 b1 b2 → getOverlap s1 s2 b1 b2 ≤ 1) := by
  refine ⟨?_, ?_, ?_, fun s1 s2 => getOverlap_pos_le_one s1 s2 b1 b2 hb⟩
  · rintro ⟨i, w⟩ hmem
    obtain ⟨j, r, hij, hr, hw, hwpos⟩ :=
      (sourceWeightsAux_mem b1 b2 ranges 0 i w).mp hmem
    exact ⟨hwpos, hw ▸ getOverlap_pos_le_one r.1 r.2 b1 b2 hb (hw ▸ hwpos)⟩
  · intro i r hr
    constructor
    · rintro ⟨w, hmem⟩
      obtain ⟨j, r', hij, hr', hw, hwpos⟩ :=
        (sourceWeightsAux_mem b1 b2 ranges 0 i w).mp hmem
      have hji : j = i := by omega
      subst hji
      rw [hr] at hr'
      injection hr' with hrr
      rw [← hrr] at hw
      rw [hw] at hwpos
      exact hwpos
    · intro hpos
      exact ⟨getOverlap r.1 r.2 b1 b2,
        (sourceWeightsAux_mem b1 b2 ranges 0 i _).mpr ⟨i, r, by omega, hr, rfl, hpos⟩⟩
  · intro i w hmem
    obtain ⟨j, r, hij, hr, hw, hwpos⟩ :=
      (sourceWeightsAux_mem b1 b2 ranges 0 i w).mp hmem
    have hji : j = i := by omega
    subst hji
    exact ⟨r, hr, hw⟩

/-- Witness for C5: the single source range `[0, 8]` against the window `[0, 8]`
is recorded with weight `1 ∈ (0, 1]`. -/
theorem index_to_weight_range_witness :
    0 < ((0:ℕ), (1:ℚ)).2 ∧ ((0:ℕ), (1:ℚ)).2 ≤ 1 := by
  have hov : getOverlap 0 8 0 8 = 1 := by norm_num [getOverlap]
  have hmem : ((0:ℕ), (1:ℚ)) ∈ sourceOverlapWeights [((0:ℚ), 8)] 0 8 := by
    simp [sourceOverlapWeights, sourceWeightsAux, hov]
  exact (index_to_weight_range [((0:ℚ), 8)] 0 8 (by norm_num)
    (by rintro r hr; rw [List.mem_singleton] at hr; rw [hr]; norm_num)).1
    ((0:ℕ), (1:ℚ)) hmem

/-- Length of the `start_time` (time-bounds) variable of a possibly non-existent
dataset (0 when the file does not exist). -/
def startLen {Img : Type} : Option (NcDataset Img) → ℕ
  | none => 0
  | some d => d.start_times.length

/-- The number of windows one `update` run writes: requested windows whose
index-to-weight mapping is nonempty (for those `get_images` returns images and
`_write_image` is called). -/
def writtenWindowCount (ranges : List (ℚ × ℚ)) (cubeStart dx : ℚ) : ℕ :=
  match ranges with
  | [] => 0
  | r0 :: rest =>
    ((requestedWindows (alignedStart cubeStart r0.1 dx)
        (((r0 :: rest).getLast (List.cons_ne_nil r0 rest)).2) dx).filter
      (fun w => !(sourceOverlapWeights (r0 :: rest) w.1 w.2).isEmpty)).length

lemma startLen_writeImage {Img : Type} (ds : Option (NcDataset Img)) (t1 t2 : ℚ)
    (img : Img) : startLen (some (writeImage ds t1 t2 img)) = startLen ds + 1 := by
  cases ds <;> simp [startLen, writeImage, initVariableDataset]

lemma startLen_foldl {Img : Type} (p : ℚ × ℚ → Bool) (g : ℚ × ℚ → Img) :
    ∀ (ws : List (ℚ × ℚ)) (ds : Option (NcDataset Img)),
      startLen (ws.foldl (fun acc w =>
          if p w then acc else some (writeImage acc w.1 w.2 (g w))) ds) =
        startLen ds + (ws.filter (fun w => !p w)).length := by
  intro ws
  induction ws with
  | nil => intro ds; simp
  | cons a t ih =>
    intro ds
    rw [List.foldl_cons]
    cases hpa : p a with
    | true =>
      have hred : (if true = true then ds else some (writeImage ds a.1 a.2 (g a))) = ds := rfl
      rw [hred, ih ds, List.filter_cons]
      simp [hpa]
    | false =>
      have hred : (if false = true then ds else some (writeImage ds a.1 a.2 (g a))) =
          some (writeImage ds a.1 a.2 (g a)) := rfl
      rw [hred, ih, startLen_writeImage, List.filter_cons]
      simp [hpa]
      omega

/-- One open-cube `update` run appends exactly `writtenWindowCount` new time
entries to the dataset, regardless of its prior contents — `_write_image` never
checks whether a window is already present. -/
lemma update_append_length {Img : Type} (ci : List (ℕ × ℚ) → Img)
    (r0 : ℚ × ℚ) (rest : List (ℚ × ℚ)) (c dx : ℚ) (ds : Option (NcDataset Img)) :
    startLen (updateRun ci (r0 :: rest) false c dx ds).2.2 =
      startLen ds + writtenWindowCount (r0 :: rest) c dx := by
  simp only [updateRun, if_neg (by simp : ¬(false = true)), writtenWindowCount]
  exact startLen_foldl
    (fun w => (sourceOverlapWeights (r0 :: rest) w.1 w.2).isEmpty)
    (fun w => ci (sourceOverlapWeights (r0 :: rest) w.1 w.2)) _ ds

/-- C9 amended: running `update` twice with an unchanged provider and unchanged
source data appends every qualifying window AGAIN: the time-bounds length after
the second run is the length after the first run plus `writtenWindowCount` once
more (so entries are duplicated whenever at least one window is written — the
code has no deduplication guard). -/
theorem update_twice_appends {Img : Type} (ci : List (ℕ × ℚ) → Img)
    (r0 : ℚ × ℚ) (rest : List (ℚ × ℚ)) (c dx : ℚ) (ds : Option (NcDataset Img)) :
    startLen (updateRun ci (r0 :: rest) false c dx
        (updateRun ci (r0 :: rest) false c dx ds).2.2).2.2 =
      startLen ds + 2 * writtenWindowCount (r0 :: rest) c dx ∧
    startLen (updateRun ci (r0 :: rest) false c dx ds).2.2 =
      startLen ds + writtenWindowCount (r0 :: rest) c dx := by
  constructor
  · rw [update_append_length, update_append_length]
    ring
  · exact update_append_length ci r0 rest c dx ds

lemma requestedWindows_ex : requestedWindows 0 8 8 = [(0, 8)] := by
  have h1 : (numSteps 0 8 8 + 1).toNat = 2 := by
    have hfloor : numSteps 0 8 8 = 1 := by norm_num [numSteps]
    rw [hfloor]
    rfl
  unfold requestedWindows
  rw [h1]
  have h2 : List.range 2 = [0, 1] := by decide
  rw [h2]
  norm_num [List.filterMap_cons]

lemma sourceOverlapWeights_ex : sourceOverlapWeights [((0:ℚ), 8)] 0 8 = [(0, 1)] := by
  have hov : getOverlap 0 8 0 8 = 1 := by norm_num [getOverlap]
  simp [sourceOverlapWeights, sourceWeightsAux, hov]

lemma writtenWindowCount_ex : writtenWindowCount [((0:ℚ), 8)] 0 8 = 1 := by
  have hal : alignedStart 0 0 8 = 0 := by norm_num [alignedStart, numSteps]
  simp only [writtenWindowCount, List.getLast_singleton, hal, requestedWindows_ex,
    sourceOverlapWeights_ex]
  rfl

/-- C9 counterexample: one provider with the single source range `[0, 8]` on a cube
with `cube_start = 0`, `temporal_res = 8`: the first `update` writes one time
entry, the second `update` on unchanged data appends it again, leaving the
time-bounds variable at length 2 instead of 1 — a duplicate time entry. -/
theorem update_idempotence_cex :
    startLen (updateRun (fun _ => ()) [((0:ℚ), 8)] false 0 8
        (updateRun (fun _ => ()) [((0:ℚ), 8)] false 0 8 none).2.2).2.2 = 2 ∧
    startLen (updateRun (fun _ => ()) [((0:ℚ), 8)] false 0 8
        (none : Option (NcDataset Unit))).2.2 = 1 := by
  constructor
  · rw [update_append_length, update_append_length, writtenWindowCount_ex]
    rfl
  · rw [update_append_length, writtenWindowCount_ex]
    rfl

/-- `CubeConfig` (lines 176-220): the ten configuration fields set by
`CubeConfig.__init__`.  Numeric fields keep their Python types (int → `ℕ`,
float → `ℚ`); `start_time` is the numeric time scalar; `variables` is the
optional list of variable names (the source field `variables` is a reserved
word in Lean and appears here as `varNames`). -/
structure CubeConfig where
  grid_width : ℕ
  grid_height : ℕ
  easting : ℚ
  northing : ℚ
  spatial_res : ℚ
  start_time : ℚ
  temporal_res : ℕ
  varNames : Option (List String)
  format : String
  compression : Bool
deriving DecidableEq

/-- The constructor defaults of `CubeConfig.__init__` (`start_time`'s default
`datetime(2000, 1, 1)` is the time-scalar 0 under the epoch convention). -/
def defaultCubeConfig : CubeConfig :=
  { grid_width := 1440, grid_height := 720, easting := -180, northing := -90,
    spatial_res := 1/4, start_time := 0, temporal_res := 8, varNames := none,
    format := "NETCDF4_CLASSIC", compression := false }

/-- A Python literal as written by `repr(value)` into `cube.config` and read back
by `exec`; the source's `repr`/`eval` round trip on these value types is modelled
as the identity on this type. -/
inductive ConfigValue where
  | natVal : ℕ → ConfigValue
  | ratVal : ℚ → ConfigValue
  | strVal : String → ConfigValue
  | boolVal : Bool → ConfigValue
  | varsVal : Option (List String) → ConfigValue
deriving DecidableEq

/-- `CubeConfig.store` (lines 240-249): one `name = repr(value)` line per field;
none of the ten field names starts or ends with an underscore, so all ten are
written, in the instance-dict order established by `__init__`. -/
def configStore (c : CubeConfig) : List (String × ConfigValue) :=
  [("grid_width", ConfigValue.natVal c.grid_width),
   ("grid_height", ConfigValue.natVal c.grid_height),
   ("easting", ConfigValue.ratVal c.easting),
   ("northing", ConfigValue.ratVal c.northing),
   ("spatial_res", ConfigValue.ratVal c.spatial_res),
   ("start_time", ConfigValue.ratVal c.start_time),
   ("temporal_res", ConfigValue.natVal c.temporal_res),
   ("variables", ConfigValue.varsVal c.varNames),
   ("format", ConfigValue.strVal c.format),
   ("compression", ConfigValue.boolVal c.compression)]

/-- One `name = value` assignment executed by `CubeConfig.load`'s `exec` into the
config's instance dict: a known field name overwrites that field; anything else
leaves the defined fields unchanged. -/
def configSetField (c : CubeConfig) : String × ConfigValue → CubeConfig
  | ("grid_width", ConfigValue.natVal n) => { c with grid_width := n }
  | ("grid_height", ConfigValue.natVal n) => { c with grid_height := n }
  | ("easting", ConfigValue.ratVal q) => { c with easting := q }
  | ("northing", ConfigValue.ratVal q) => { c with northing := q }
  | ("spatial_res", ConfigValue.ratVal q) => { c with spatial_res := q }
  | ("start_time", ConfigValue.ratVal q) => { c with start_time := q }
  | ("temporal_res", ConfigValue.natVal n) => { c with temporal_res := n }
  | ("variables", ConfigValue.varsVal v) => { c with varNames := v }
  | ("format", ConfigValue.strVal s) => { c with format := s }
  | ("compression", ConfigValue.boolVal b) => { c with compression := b }
  | _ => c

/-- `CubeConfig.load` (lines 227-238): start from a default-constructed
`CubeConfig()` and execute the stored assignments over it. -/
def configLoad (assigns : List (String × ConfigValue)) : CubeConfig :=
  assigns.foldl configSetField defaultCubeConfig

/-- C8: storing a `CubeConfig` and reloading it yields identical values for all
ten defined fields. -/
theorem config_roundtrip (c : CubeConfig) : configLoad (configStore c) = c := by
  cases c
  rfl

/-- The `Cube` record (lines 252-263): a base directory paired with its
configuration. -/
structure Cube where
  base_dir : String
  config : CubeConfig
deriving DecidableEq

/-- `Cube.open` (lines 268-281) over a file system modelled as the association
list of existing cube base directories and their persisted `cube.config`
contents: if the base directory does not exist the call raises
`IOError('data cube base directory does not exists: ...')`; otherwise the stored
configuration is loaded and a cube is returned.  Opening never modifies the file
system, so no file-system component is returned. -/
def cubeOpen (fs : List (String × CubeConfig)) (baseDir : String) :
    Except String Cube :=
  match fs.lookup baseDir with
  | none => Except.error "data cube base directory does not exists"
  | some cfg => Except.ok { base_dir := baseDir, config := cfg }

/-- `Cube.create` (lines 283-298): if the base directory already exists the call
raises `IOError('data cube base directory exists: ...')` and the file system is
untouched; otherwise the directory is created, the configuration stored in it,
and a cube returned. -/
def cubeCreate (fs : List (String × CubeConfig)) (baseDir : String)
    (cfg : CubeConfig) : Except String Cube × List (String × CubeConfig) :=
  if (fs.lookup baseDir).isSome then
    (Except.error "data cube base directory exists", fs)
  else
    (Except.ok { base_dir := baseDir, config := cfg }, (baseDir, cfg) :: fs)

/-- C7: `Cube.open` fails with an I/O-state error iff the base directory does not
exist, and otherwise returns the cube loaded from the persisted configuration;
`Cube.create` fails with an I/O-state error iff the base directory already
exists, leaving the file system unmodified in that case, and otherwise creates
the directory with the stored configuration and returns the new cube. -/
theorem open_create_iff (fs : List (String × CubeConfig)) (b : String)
    (cfg : CubeConfig) :
    ((∃ e, cubeOpen fs b = Except.error e) ↔ fs.lookup b = none) ∧
    (∀ c, fs.lookup b = some c →
      cubeOpen fs b = Except.ok { base_dir := b, config := c }) ∧
    ((∃ e, (cubeCreate fs b cfg).1 = Except.error e) ↔ (fs.lookup b).isSome = true) ∧
    ((fs.lookup b).isSome = true → (cubeCreate fs b cfg).2 = fs) ∧
    (fs.lookup b = none →
      cubeCreate fs b cfg =
        (Except.ok { base_dir := b, config := cfg }, (b, cfg) :: fs)) := by
  cases h : fs.lookup b with
  | none =>
    refine ⟨?_, ?_, ?_, ?_, ?_⟩ <;> simp [cubeOpen, cubeCreate, h]
  | some c0 =>
    refine ⟨?_, ?_, ?_, ?_, ?_⟩ <;> simp [cubeOpen, cubeCreate, h]

/-- Witness for C7: creating a cube in an empty file system succeeds and records
the directory with its stored configuration. -/
theorem open_create_iff_witness :
    cubeCreate [] "mycube" defaultCubeConfig =
      (Except.ok { base_dir := "mycube", config := defaultCubeConfig },
        [("mycube", defaultCubeConfig)]) :=
  (open_create_iff [] "mycube" defaultCubeConfig).2.2.2.2 rfl

end Cablab
